import Mathlib

/-!
Verification of the PETSc nonlinear-solver adapter layer and the
fixed-dimension vector type of `src/src/solvers/petsc_nonlinear_solver.C`
(libMesh).  The C++ code is shallowly embedded: distributed vectors become
`List ℚ`, matrices `List (List ℚ)`, the solver context becomes a record of
optional callbacks, and the PETSc callback trampolines become Lean
functions returning `Except ConfigError _` (a `libmesh_error_msg` abort is
an `Except.error`).
-/

namespace LibMeshPetsc

/-- Distributed vector contents (one entry per global degree of freedom). -/
abbrev Vec := List ℚ

/-- Distributed matrix contents. -/
abbrev Mat := List (List ℚ)

/-- A user residual computation: takes the current local solution and the
residual buffer, returns the updated residual buffer
(`residual(*sys.current_local_solution.get(), R, sys)`). -/
abbrev ResidualFn := Vec → Vec → Vec

/-- A user Jacobian computation: takes the current local solution and the
preconditioning matrix, returns the updated matrix
(`jacobian(*sys.current_local_solution.get(), PC, sys)`). -/
abbrev JacobianFn := Vec → Mat → Mat

/-- A combined residual/Jacobian computation (`matvec` function pointer or
`residual_and_jacobian_object`): receives the local solution and optional
residual / matrix output slots (`libmesh_nullptr` becomes `none`), returns
the outputs for the slots that were provided. -/
abbrev MatvecFn := Vec → Option Vec → Option Mat → Option Vec × Option Mat

/-- A user post-check computation: receives the old solution `x`, the
search direction `y` and the candidate solution `w`, and returns the
(possibly modified) three buffers together with the two changed flags it
set (`changed_search_direction`, `changed_new_soln`). -/
abbrev PostcheckFn := Vec → Vec → Vec → Vec × Vec × Vec × Bool × Bool

/-- The nonlinear implicit system, as the adapter sees it: the parallel
solution vector, its locally-consistent replica, the number of constrained
degrees of freedom, and the out-of-scope collaborators
(`sys.update()` localization and the two forms of
`enforce_constraints_exactly`) as opaque functions. -/
structure NLSystem where
  solution : Vec
  current_local_solution : Vec
  n_constrained_dofs : ℕ
  /-- Models `sys.update()`: builds `current_local_solution` from `solution`. -/
  localizeFn : Vec → Vec
  /-- Models `dof_map.enforce_constraints_exactly(sys, local_buffer)`. -/
  enforceLocalFn : Vec → Vec
  /-- Models `dof_map.enforce_constraints_exactly(sys)`: acts on the parallel
  solution vector. -/
  enforceGlobalFn : Vec → Vec

/-- The `PetscNonlinearSolver` callback context: one optional
function-pointer form and one optional object form per role, the zeroing
flags, and the scratch iteration counter. -/
structure SNESCtx where
  residual : Option ResidualFn := none
  residual_object : Option ResidualFn := none
  jacobian : Option JacobianFn := none
  jacobian_object : Option JacobianFn := none
  matvec : Option MatvecFn := none
  residual_and_jacobian_object : Option MatvecFn := none
  postcheck : Option PostcheckFn := none
  postcheck_object : Option PostcheckFn := none
  nullspace : Bool := false
  nullspace_object : Bool := false
  transpose_nullspace : Bool := false
  transpose_nullspace_object : Bool := false
  nearnullspace : Bool := false
  nearnullspace_object : Bool := false
  zero_out_residual : Bool := true
  zero_out_jacobian : Bool := true
  current_nonlinear_iteration_number : ℕ := 0

/-- The fatal configuration errors raised by `libmesh_error_msg` in the
three callback trampolines. -/
inductive ConfigError
  | bothResidual        -- function and object for the Residual
  | bothCombined        -- function and object for combined Residual and Jacobian
  | bothJacobian        -- function and object for the Jacobian
  | bothPostcheck       -- function and object for the postcheck
  | noForm              -- unable to compute residual and/or Jacobian
deriving DecidableEq, Repr

/-- Which computation form a callback dispatched to. -/
inductive ResidualForm
  | fnForm              -- plain function pointer
  | objForm             -- polymorphic object
  | matvecForm          -- combined-matvec function pointer
  | combinedObjForm     -- combined residual-and-jacobian object
deriving DecidableEq, Repr

/-- Registration is plain member assignment on the context; it is total
and performs no check.  `setResidual` registers the plain residual
function form. -/
def setResidual (c : SNESCtx) (f : ResidualFn) : SNESCtx :=
  { c with residual := some f }

/-- Register the polymorphic residual object form. -/
def setResidualObject (c : SNESCtx) (f : ResidualFn) : SNESCtx :=
  { c with residual_object := some f }

/-- Register the plain Jacobian function form. -/
def setJacobian (c : SNESCtx) (f : JacobianFn) : SNESCtx :=
  { c with jacobian := some f }

/-- Register the polymorphic Jacobian object form. -/
def setJacobianObject (c : SNESCtx) (f : JacobianFn) : SNESCtx :=
  { c with jacobian_object := some f }

/-- Register the combined-matvec function form. -/
def setMatvec (c : SNESCtx) (f : MatvecFn) : SNESCtx :=
  { c with matvec := some f }

/-- Register the combined residual-and-jacobian object form. -/
def setResidualAndJacobianObject (c : SNESCtx) (f : MatvecFn) : SNESCtx :=
  { c with residual_and_jacobian_object := some f }

/-- Register the plain post-check function form. -/
def setPostcheck (c : SNESCtx) (f : PostcheckFn) : SNESCtx :=
  { c with postcheck := some f }

/-- Register the polymorphic post-check object form. -/
def setPostcheckObject (c : SNESCtx) (f : PostcheckFn) : SNESCtx :=
  { c with postcheck_object := some f }

/-- The swap of two distributed vectors (`X_global.swap(X_sys)`):
exchanges the underlying storage of the pair, no copy. -/
def vecSwap (p : Vec × Vec) : Vec × Vec := (p.2, p.1)

/-- Lines 107-109 of the residual trampoline: swap the trial buffer `x`
into the canonical-solution position, run `sys.update()` to localize, and
swap back.  Returns the resulting system together with the trial buffer's
contents after the window. -/
def residualSyncWindow (sys : NLSystem) (x : Vec) : NLSystem × Vec :=
  -- X_global.swap(X_sys)
  let sys1 : NLSystem := { sys with solution := x }
  let xheld := sys.solution
  -- sys.update()
  let sys2 : NLSystem := { sys1 with current_local_solution := sys1.localizeFn sys1.solution }
  -- X_global.swap(X_sys)
  let sys3 : NLSystem := { sys2 with solution := xheld }
  (sys3, sys2.solution)

/-- Result of a successful residual trampoline invocation: the updated
context and system, the trial buffer contents on return, the residual
buffer contents on return, and which computation form was dispatched. -/
structure ResidualOut where
  ctx : SNESCtx
  sys : NLSystem
  x : Vec
  r : Vec
  form : ResidualForm

/-- The trampoline `__libmesh_petsc_snes_residual`: store the engine's iteration count,
synchronize the trial point into the local replica, enforce constraints on
the replica, zero the residual if requested, check the mutual-exclusion
configuration errors, and dispatch to the first registered form in the
order function > object > matvec > combined object. -/
def snesResidual (c : SNESCtx) (sys : NLSystem) (engineIter : ℕ) (x r : Vec) :
    Except ConfigError ResidualOut :=
  let c1 : SNESCtx := { c with current_nonlinear_iteration_number := engineIter }
  let sys1 := (residualSyncWindow sys x).1
  let x1 := (residualSyncWindow sys x).2
  let sys2 : NLSystem :=
    { sys1 with current_local_solution := sys1.enforceLocalFn sys1.current_local_solution }
  let r1 := if c1.zero_out_residual then r.map (fun _ => 0) else r
  if c1.residual.isSome && c1.residual_object.isSome then
    .error .bothResidual
  else if c1.matvec.isSome && c1.residual_and_jacobian_object.isSome then
    .error .bothCombined
  else
    match c1.residual, c1.residual_object, c1.matvec, c1.residual_and_jacobian_object with
    | some f, _, _, _ => .ok ⟨c1, sys2, x1, f sys2.current_local_solution r1, .fnForm⟩
    | none, some f, _, _ => .ok ⟨c1, sys2, x1, f sys2.current_local_solution r1, .objForm⟩
    | none, none, some f, _ =>
        .ok ⟨c1, sys2, x1, ((f sys2.current_local_solution (some r1) none).1.getD r1), .matvecForm⟩
    | none, none, none, some f =>
        .ok ⟨c1, sys2, x1, ((f sys2.current_local_solution (some r1) none).1.getD r1), .combinedObjForm⟩
    | none, none, none, none => .error .noForm

/-- The first registered residual form in the precedence order of the
dispatch chain (the form the claim says must be invoked). -/
def firstRegisteredResidualForm (c : SNESCtx) : Option ResidualForm :=
  if c.residual.isSome then some .fnForm
  else if c.residual_object.isSome then some .objForm
  else if c.matvec.isSome then some .matvecForm
  else if c.residual_and_jacobian_object.isSome then some .combinedObjForm
  else none

/-- Which computation form a Jacobian callback dispatched to. -/
inductive JacobianForm
  | fnForm | objForm | matvecForm | combinedObjForm
deriving DecidableEq, Repr

/-- Result of a successful Jacobian trampoline invocation. -/
structure JacobianOut where
  ctx : SNESCtx
  sys : NLSystem
  x : Vec
  jac : Mat
  pc : Mat
  form : JacobianForm

/-- Zero a distributed matrix in place (`PC.zero()`): every stored entry
becomes 0, the sparsity structure is kept. -/
def matZero (m : Mat) : Mat := m.map (fun row => row.map (fun _ => 0))

/-- The trampoline `__libmesh_petsc_snes_jacobian`: same synchronization as the residual
trampoline, zero the preconditioning matrix if requested, check the
mutual-exclusion errors, and dispatch in the order function > object >
matvec > combined object. -/
def snesJacobian (c : SNESCtx) (sys : NLSystem) (engineIter : ℕ) (x : Vec) (jac pc : Mat) :
    Except ConfigError JacobianOut :=
  let c1 : SNESCtx := { c with current_nonlinear_iteration_number := engineIter }
  let sys1 := (residualSyncWindow sys x).1
  let x1 := (residualSyncWindow sys x).2
  let sys2 : NLSystem :=
    { sys1 with current_local_solution := sys1.enforceLocalFn sys1.current_local_solution }
  let pc1 := if c1.zero_out_jacobian then matZero pc else pc
  if c1.jacobian.isSome && c1.jacobian_object.isSome then
    .error .bothJacobian
  else if c1.matvec.isSome && c1.residual_and_jacobian_object.isSome then
    .error .bothCombined
  else
    match c1.jacobian, c1.jacobian_object, c1.matvec, c1.residual_and_jacobian_object with
    | some f, _, _, _ => .ok ⟨c1, sys2, x1, jac, f sys2.current_local_solution pc1, .fnForm⟩
    | none, some f, _, _ => .ok ⟨c1, sys2, x1, jac, f sys2.current_local_solution pc1, .objForm⟩
    | none, none, some f, _ =>
        .ok ⟨c1, sys2, x1, jac, ((f sys2.current_local_solution none (some pc1)).2.getD pc1), .matvecForm⟩
    | none, none, none, some f =>
        .ok ⟨c1, sys2, x1, jac, ((f sys2.current_local_solution none (some pc1)).2.getD pc1), .combinedObjForm⟩
    | none, none, none, none => .error .noForm

/-- Result of a successful post-check trampoline invocation: final
contents of the three buffers, the final system, and the two output
flags. -/
structure PostcheckOut where
  x : Vec
  y : Vec
  w : Vec
  sys : NLSystem
  changed_y : Bool
  changed_w : Bool

/-- The trampoline `__libmesh_petsc_snes_postcheck`: set both changed flags to
false, raise the configuration error if both post-check forms are
registered, short-circuit when there is nothing to do, otherwise run the
registered user post-check (if any), fold its flags into the outputs, and
when constrained degrees of freedom exist swap the candidate point into
the solution position, enforce constraints globally, force
`changed_w := true`, and swap back. -/
def snesPostcheck (c : SNESCtx) (sys : NLSystem) (x y w : Vec) :
    Except ConfigError PostcheckOut :=
  if c.postcheck.isSome && c.postcheck_object.isSome then
    .error .bothPostcheck
  else if sys.n_constrained_dofs = 0 && c.postcheck.isNone && c.postcheck_object.isNone then
    .ok ⟨x, y, w, sys, false, false⟩
  else
    let ur : Vec × Vec × Vec × Bool × Bool :=
      match c.postcheck, c.postcheck_object with
      | some f, _ => f x y w
      | none, some f => f x y w
      | none, none => (x, y, w, false, false)
    if sys.n_constrained_dofs ≠ 0 then
      -- petsc_w.swap(system_soln)
      let sysheld := sys.solution
      let sys1 : NLSystem := { sys with solution := ur.2.2.1 }
      -- dof_map.enforce_constraints_exactly(sys)
      let sys2 : NLSystem := { sys1 with solution := sys1.enforceGlobalFn sys1.solution }
      -- *changed_w = PETSC_TRUE; swap back
      .ok ⟨ur.1, ur.2.1, sys2.solution, { sys2 with solution := sysheld }, ur.2.2.2.1, true⟩
    else
      .ok ⟨ur.1, ur.2.1, ur.2.2.1, sys, ur.2.2.2.1, ur.2.2.2.2⟩

/-- Engine operations the solve orchestrator issues against SNES, in the
order of `PetscNonlinearSolver::solve`. -/
inductive EngineCall
  | setFunction          -- SNESSetFunction
  | setJacobianCall      -- SNESSetJacobian
  | setKSPTolerances     -- KSPSetTolerances
  | setSNESTolerances    -- SNESSetTolerances
  | setFromOptions       -- SNESSetFromOptions
  | snesSolveCall        -- SNESSolve
deriving DecidableEq, Repr

/-- The sequence of engine registrations and calls that
`PetscNonlinearSolver::solve` makes: the residual callback is registered
unconditionally; the Jacobian callback is registered only when
`this->jacobian || this->jacobian_object || this->residual_and_jacobian_object`. -/
def petscSolveTrace (c : SNESCtx) : List EngineCall :=
  [EngineCall.setFunction] ++
  (if c.jacobian.isSome || c.jacobian_object.isSome ||
      c.residual_and_jacobian_object.isSome then
    [EngineCall.setJacobianCall]
  else []) ++
  [EngineCall.setKSPTolerances, EngineCall.setSNESTolerances,
   EngineCall.setFromOptions, EngineCall.snesSolveCall]

/-- The spec sentence's notion of a Jacobian-producing computation form,
as claimed: plain function, polymorphic object, combined-matvec function,
or combined residual-and-jacobian object. -/
def jacobianProducingSpec (c : SNESCtx) : Prop :=
  c.jacobian.isSome ∨ c.jacobian_object.isSome ∨
    c.matvec.isSome ∨ c.residual_and_jacobian_object.isSome

instance (c : SNESCtx) : Decidable (jacobianProducingSpec c) := by
  unfold jacobianProducingSpec; infer_instance

/-- What the engine reports after `SNESSolve` returns: iteration count,
cumulative linear iterations, convergence reason and the norm of the final
function value. -/
structure EngineResult where
  n_iterations : ℕ
  n_linear_iterations : ℤ
  reason : ℤ
  final_fnorm : ℚ

/-- The outcome state recorded by the tail of
`PetscNonlinearSolver::solve`. -/
structure SolveOutcome where
  n_iterations : ℕ
  n_linear_iterations : ℤ
  reason : ℤ
  converged : Bool
  final_residual_norm : ℚ

/-- The tail of `PetscNonlinearSolver::solve`: record the iteration
counts, recover the final residual norm from the engine's function state,
store the convergence reason, and set
`this->converged = (_reason >= 0)`. -/
def petscSolveOutcome (er : EngineResult) : SolveOutcome :=
  { n_iterations := er.n_iterations
    n_linear_iterations := er.n_linear_iterations
    reason := er.reason
    converged := decide (0 ≤ er.reason)
    final_residual_norm := er.final_fnorm }

/-! ### Gram-Schmidt null-space construction (`build_mat_null_space`)

Vectors here are ambient-dimension `d` functions `Fin d → ℚ`; the square
root of the 2-norm that `VecNormalize` computes is passed in as a
function `vsqrt` (the code computes it in real arithmetic; the theorems
assume it is exact on the values actually encountered). -/

/-- Euclidean dot product of two ambient vectors (`VecMDot` entry). -/
def dotQ {d : ℕ} (v w : Fin d → ℚ) : ℚ := ∑ i, v i * w i

/-- Models `VecNormalize`: compute the 2-norm via `vsqrt`; a vector of zero norm
is left unscaled, otherwise every entry is divided by the norm. -/
def vecNormalize (vsqrt : ℚ → ℚ) {d : ℕ} (v : Fin d → ℚ) : Fin d → ℚ :=
  let s := vsqrt (dotQ v v)
  if s = 0 then v else fun i => v i / s

/-- The orthogonalization step of the loop body: `VecMDot` computes
`dots[j] = modes[i]·modes[j]`, the signs are flipped, and `VecMAXPY` adds
`Σ_j (-dots[j])·modes[j]` to `modes[i]`. -/
def gsOrthoStep {d : ℕ} (processed : List (Fin d → ℚ)) (v : Fin d → ℚ) : Fin d → ℚ :=
  fun i => v i - (processed.map (fun m => dotQ v m * m i)).sum

/-- The Gram-Schmidt loop of `build_mat_null_space`: each remaining vector
is orthogonalized against all previously processed (already normalized)
vectors and then normalized.  `modes[0]` is only normalized, which is the
same step with an empty processed list. -/
def gsLoop (vsqrt : ℚ → ℚ) {d : ℕ} (processed : List (Fin d → ℚ)) :
    List (Fin d → ℚ) → List (Fin d → ℚ)
  | [] => processed
  | v :: rest =>
      gsLoop vsqrt (processed ++ [vecNormalize vsqrt (gsOrthoStep processed v)]) rest

/-- The pre-normalization intermediate vectors of the loop, in order: the
vector handed to `VecNormalize` at each iteration.  The exact-arithmetic
hypotheses of the orthonormality theorem quantify over these. -/
def gsPreNorms (vsqrt : ℚ → ℚ) {d : ℕ} (processed : List (Fin d → ℚ)) :
    List (Fin d → ℚ) → List (Fin d → ℚ)
  | [] => []
  | v :: rest =>
      gsOrthoStep processed v ::
        gsPreNorms vsqrt (processed ++ [vecNormalize vsqrt (gsOrthoStep processed v)]) rest

/-- Models `PetscNonlinearSolver::build_mat_null_space`: collect the provider's
basis vectors; if there are none, `*msp` stays `PETSC_NULL` (no subspace
object); otherwise copy them, normalize the first, Gram-Schmidt the rest,
and create the null-space object from the result. -/
def build_mat_null_space (vsqrt : ℚ → ℚ) {d : ℕ} (sp : List (Fin d → ℚ)) :
    Option (List (Fin d → ℚ)) :=
  match sp with
  | [] => none
  | _ => some (gsLoop vsqrt [] sp)

/-- Orthonormality of a list of vectors: pairwise zero dot products and
unit self dot products. -/
def OrthoNormList {d : ℕ} (l : List (Fin d → ℚ)) : Prop :=
  l.Pairwise (fun a b => dotQ a b = 0) ∧ ∀ v ∈ l, dotQ v v = 1

/-! ### Fixed-dimension vector type (`TypeVector<Real>`) -/

/-- Models `TypeVector<Real>::operator==`, per compiled dimension: the sum of
absolute coordinate differences compared against `DIM * TOLERANCE`
(`DIM == 1` compares against `TOLERANCE` itself).  The template is only
instantiated for `DIM` 1, 2 and 3; other dimensions have no body. -/
def typeVectorEq (tol : ℚ) : {dim : ℕ} → (Fin dim → ℚ) → (Fin dim → ℚ) → Bool
  | 1, u, v => decide (|u 0 - v 0| < tol)
  | 2, u, v => decide (|u 0 - v 0| + |u 1 - v 1| < 2 * tol)
  | 3, u, v => decide (|u 0 - v 0| + |u 1 - v 1| + |u 2 - v 2| < 3 * tol)
  | _, _, _ => false

/-- Models `TypeVector<Real>::operator!=`: `return (!(*this == rhs))`. -/
def typeVectorNe (tol : ℚ) {dim : ℕ} (u v : Fin dim → ℚ) : Bool :=
  !(typeVectorEq tol u v)

/-- The spec's description of the comparison: the sum over all
coordinates of the absolute differences is strictly below `dim * tol`. -/
def typeVectorEqSpec (tol : ℚ) {dim : ℕ} (u v : Fin dim → ℚ) : Bool :=
  decide ((∑ i, |u i - v i|) < dim * tol)

/-- The read-only element accessor `T TypeVector::operator()(i) const`:
`assert(i < 3)`; when `DIM < 3` an index past the last coordinate returns
`0.`, otherwise `_coords[i]` is read. -/
def typeVectorGet {dim : ℕ} (u : Fin dim → ℚ) (i : ℕ) (hdim : 0 < dim) (hi : i < 3) : ℚ :=
  if hlt : dim < 3 then
    if hgt : i > dim - 1 then 0
    else u ⟨i, by omega⟩
  else u ⟨i, by omega⟩

/-- The writable element accessor `T & TypeVector::operator()(i)`: when
`DIM < 3` and `i >= DIM`, `error()` is called (no reference is returned,
modeled as `none`); otherwise a reference to `_coords[i]` is returned
(modeled as its value, with the `assert(i < DIM)` bound). -/
def typeVectorGetRef {dim : ℕ} (u : Fin dim → ℚ) (i : ℕ) (_hdim : 0 < dim) (hi : i < 3) :
    Option ℚ :=
  if hlt : dim < 3 then
    if hge : i ≥ dim then none
    else some (u ⟨i, by omega⟩)
  else some (u ⟨i, by omega⟩)

/-! ### Concrete instances used by witnesses and counterexamples -/

/-- A system with no constrained degrees of freedom. -/
def sysFree : NLSystem := ⟨[1, 2], [1, 2], 0, id, id, id⟩

/-- A system with one constrained degree of freedom. -/
def sysCon : NLSystem := ⟨[1, 2], [1, 2], 1, id, id, id⟩

/-- A trivial user residual computation. -/
def rfn0 : ResidualFn := fun _ r => r

/-- A trivial user Jacobian computation. -/
def jfn0 : JacobianFn := fun _ m => m

/-- A trivial combined residual/Jacobian computation. -/
def mv0 : MatvecFn := fun _ r m => (r, m)

/-- A trivial user post-check that changes nothing and reports no
change. -/
def pcfn0 : PostcheckFn := fun x y w => (x, y, w, false, false)

/-- A context with both forms registered for all four roles. -/
def ctxAllBoth : SNESCtx :=
  { residual := some rfn0, residual_object := some rfn0,
    jacobian := some jfn0, jacobian_object := some jfn0,
    matvec := some mv0, residual_and_jacobian_object := some mv0,
    postcheck := some pcfn0, postcheck_object := some pcfn0 }

/-! ### Theorems -/

/-- C1 counterexample: the claim quantifies over every configuration of
the residual role, but when both the plain function and the polymorphic
object are registered the callback does not invoke the first registered
form (the plain function) - it aborts with a configuration error, refuting
the claim at that configuration. -/
theorem residual_dispatch_claim_false :
    ¬ ∀ (c : SNESCtx) (sys : NLSystem) (it : ℕ) (x r : Vec),
        (∀ f, firstRegisteredResidualForm c = some f →
          ∃ out, snesResidual c sys it x r = Except.ok out ∧ out.form = f) ∧
        (firstRegisteredResidualForm c = none →
          snesResidual c sys it x r = Except.error ConfigError.noForm) := by
  intro h
  obtain ⟨out, hout, -⟩ :=
    (h { residual := some rfn0, residual_object := some rfn0 } sysFree 0 [] []).1
      ResidualForm.fnForm (by rfl)
  simp [snesResidual] at hout

/-- C1 (amended): in every configuration of the residual role in which
neither mutual-exclusion conflict is present (not both a plain function
and an object, and not both a matvec function and a combined object), the
residual callback dispatches to exactly the first registered form in the
precedence order plain function > polymorphic object > combined-matvec
function > combined object, and it raises a fatal configuration error when
none of the four forms is registered. -/
theorem residual_dispatch_precedence (c : SNESCtx) (sys : NLSystem) (it : ℕ) (x r : Vec)
    (h1 : ¬(c.residual.isSome = true ∧ c.residual_object.isSome = true))
    (h2 : ¬(c.matvec.isSome = true ∧ c.residual_and_jacobian_object.isSome = true)) :
    (∀ f, firstRegisteredResidualForm c = some f →
      ∃ out, snesResidual c sys it x r = Except.ok out ∧ out.form = f) ∧
    (firstRegisteredResidualForm c = none →
      snesResidual c sys it x r = Except.error ConfigError.noForm) := by
  rcases hr : c.residual with - | f₁ <;> rcases hro : c.residual_object with - | f₂ <;>
    rcases hm : c.matvec with - | f₃ <;>
    rcases hrj : c.residual_and_jacobian_object with - | f₄ <;>
    simp_all [snesResidual, firstRegisteredResidualForm]

/-- C1 witness: with only the plain residual function registered, the
callback dispatches to the plain-function form. -/
theorem residual_dispatch_precedence_witness :
    ∃ out, snesResidual { residual := some rfn0 } sysFree 0 [] [] = Except.ok out ∧
      out.form = ResidualForm.fnForm :=
  (residual_dispatch_precedence { residual := some rfn0 } sysFree 0 [] []
    (by simp) (by simp)).1 ResidualForm.fnForm (by rfl)

/-- C2: for each of the four roles (residual, Jacobian, combined
residual+Jacobian, post-check), registering both the plain-function form
and the object form makes the corresponding callback abort with a fatal
configuration error at its first invocation, while registration itself is
plain member assignment that always succeeds and performs no check. -/
theorem both_forms_config_error (c : SNESCtx) (sys : NLSystem) (it : ℕ)
    (x y w r : Vec) (jac pc : Mat) :
    (c.residual.isSome = true → c.residual_object.isSome = true →
      snesResidual c sys it x r = Except.error ConfigError.bothResidual) ∧
    (c.jacobian.isSome = true → c.jacobian_object.isSome = true →
      snesJacobian c sys it x jac pc = Except.error ConfigError.bothJacobian) ∧
    (c.matvec.isSome = true → c.residual_and_jacobian_object.isSome = true →
      (∃ e, snesResidual c sys it x r = Except.error e) ∧
      (∃ e, snesJacobian c sys it x jac pc = Except.error e)) ∧
    (c.postcheck.isSome = true → c.postcheck_object.isSome = true →
      snesPostcheck c sys x y w = Except.error ConfigError.bothPostcheck) ∧
    (∀ f g, (setResidualObject (setResidual c f) g).residual = some f ∧
      (setResidualObject (setResidual c f) g).residual_object = some g) ∧
    (∀ f g, (setJacobianObject (setJacobian c f) g).jacobian = some f ∧
      (setJacobianObject (setJacobian c f) g).jacobian_object = some g) ∧
    (∀ f g, (setResidualAndJacobianObject (setMatvec c f) g).matvec = some f ∧
      (setResidualAndJacobianObject (setMatvec c f) g).residual_and_jacobian_object = some g) ∧
    (∀ f g, (setPostcheckObject (setPostcheck c f) g).postcheck = some f ∧
      (setPostcheckObject (setPostcheck c f) g).postcheck_object = some g) := by
  refine ⟨?_, ?_, ?_, ?_, ?_, ?_, ?_, ?_⟩
  · intro hf ho; simp [snesResidual, hf, ho]
  · intro hf ho; simp [snesJacobian, hf, ho]
  · intro hf ho
    constructor
    · by_cases hc : (c.residual.isSome && c.residual_object.isSome) = true
      · exact ⟨ConfigError.bothResidual, by simp [snesResidual, hc]⟩
      · exact ⟨ConfigError.bothCombined, by simp [snesResidual, hc, hf, ho]⟩
    · by_cases hc : (c.jacobian.isSome && c.jacobian_object.isSome) = true
      · exact ⟨ConfigError.bothJacobian, by simp [snesJacobian, hc]⟩
      · exact ⟨ConfigError.bothCombined, by simp [snesJacobian, hc, hf, ho]⟩
  · intro hf ho; simp [snesPostcheck, hf, ho]
  · intro f g
    exact ⟨rfl, rfl⟩
  · intro f g
    exact ⟨rfl, rfl⟩
  · intro f g
    exact ⟨rfl, rfl⟩
  · intro f g
    exact ⟨rfl, rfl⟩

/-- C2 witness: with both forms registered for all four roles, each
callback aborts with the configuration error for its first conflicting
role. -/
theorem both_forms_config_error_witness :
    snesResidual ctxAllBoth sysFree 0 [] [] = Except.error ConfigError.bothResidual ∧
    snesJacobian ctxAllBoth sysFree 0 [] [] [] = Except.error ConfigError.bothJacobian ∧
    snesPostcheck ctxAllBoth sysFree [] [] [] = Except.error ConfigError.bothPostcheck :=
  ⟨(both_forms_config_error ctxAllBoth sysFree 0 [] [] [] [] [] []).1 rfl rfl,
   ((both_forms_config_error ctxAllBoth sysFree 0 [] [] [] [] [] []).2).1 rfl rfl,
   (((both_forms_config_error ctxAllBoth sysFree 0 [] [] [] [] [] []).2).2).2.1 rfl rfl⟩

/-- C3: whenever the post-check callback returns (successfully) on a
system with at least one constrained degree of freedom, the
"new point changed" flag is true, for every configuration of user
post-checks and whatever flags they report. -/
theorem postcheck_constrained_changed_w (c : SNESCtx) (sys : NLSystem) (x y w : Vec)
    (hcon : 0 < sys.n_constrained_dofs) (out : PostcheckOut)
    (hok : snesPostcheck c sys x y w = Except.ok out) :
    out.changed_w = true := by
  have h0 : sys.n_constrained_dofs ≠ 0 := Nat.pos_iff_ne_zero.mp hcon
  by_cases hc : (c.postcheck.isSome && c.postcheck_object.isSome) = true
  · simp [snesPostcheck, hc] at hok
  · simp [snesPostcheck, hc, h0] at hok
    rw [← hok]

/-- C3 witness: a user post-check that reports no change still yields
`changed_w = true` on a constrained system. -/
theorem postcheck_constrained_changed_w_witness :
    ∃ out, snesPostcheck { postcheck := some pcfn0 } sysCon [] [] [] = Except.ok out ∧
      out.changed_w = true := by
  refine ⟨⟨[], [], sysCon.enforceGlobalFn [], { sysCon with solution := sysCon.solution },
    false, true⟩, ?_, ?_⟩
  · simp [snesPostcheck, sysCon, pcfn0]
  · exact postcheck_constrained_changed_w { postcheck := some pcfn0 } sysCon [] [] []
      (by simp [sysCon]) _ (by simp [snesPostcheck, sysCon, pcfn0])

/-- C4: with zero constrained degrees of freedom and no user post-check
registered, the post-check callback returns success immediately with both
change flags false and the three buffers and the system untouched. -/
theorem postcheck_shortcircuit (c : SNESCtx) (sys : NLSystem) (x y w : Vec)
    (h0 : sys.n_constrained_dofs = 0) (hp : c.postcheck = none)
    (hpo : c.postcheck_object = none) :
    snesPostcheck c sys x y w = Except.ok ⟨x, y, w, sys, false, false⟩ := by
  simp [snesPostcheck, h0, hp, hpo]

/-- C4 witness: the short-circuit on a concrete unconstrained system. -/
theorem postcheck_shortcircuit_witness :
    snesPostcheck {} sysFree [1] [2] [3] =
      Except.ok ⟨[1], [2], [3], sysFree, false, false⟩ :=
  postcheck_shortcircuit {} sysFree [1] [2] [3] rfl rfl rfl

/-- C5: `swap` is its own inverse, and the swap / update / swap-back
window of the residual callback leaves both the canonical solution's
contents and the trial buffer's contents exactly as they were before the
first swap. -/
theorem swap_window_involution (sys : NLSystem) (x : Vec) (p : Vec × Vec) :
    vecSwap (vecSwap p) = p ∧
    (residualSyncWindow sys x).1.solution = sys.solution ∧
    (residualSyncWindow sys x).2 = x :=
  ⟨rfl, rfl, rfl⟩

/-- C6: the orchestrator's converged flag is true exactly when the
recorded convergence-reason code is nonnegative; every negative code
yields `converged = false`. -/
theorem converged_sign_convention (er : EngineResult) :
    ((petscSolveOutcome er).converged = true ↔ 0 ≤ er.reason) ∧
    (er.reason < 0 → (petscSolveOutcome er).converged = false) := by
  constructor
  · simp [petscSolveOutcome]
  · intro h
    simp [petscSolveOutcome]
    omega

/-- C6 witness: a negative reason code yields a non-converged outcome. -/
theorem converged_sign_convention_witness :
    (-3 : ℤ) < 0 ∧ (petscSolveOutcome ⟨0, 0, -3, 0⟩).converged = false :=
  ⟨by decide, (converged_sign_convention ⟨0, 0, -3, 0⟩).2 (by decide)⟩

/-- C7 counterexample: the claim says the Jacobian callback is registered
exactly when some Jacobian-producing form - including the combined-matvec
function - is present; but with only `matvec` registered the solve does
not register the Jacobian callback. -/
theorem solve_jacobian_registration_claim_false :
    ¬ ∀ c : SNESCtx,
        (EngineCall.setJacobianCall ∈ petscSolveTrace c ↔ jacobianProducingSpec c) := by
  intro h
  have hmem := (h { matvec := some mv0 }).mpr
    (Or.inr (Or.inr (Or.inl rfl)))
  simp [petscSolveTrace] at hmem

/-- C7 (amended): in every invocation of solve, the residual callback is
registered unconditionally, and the Jacobian callback is registered if and
only if a plain Jacobian function, a polymorphic Jacobian object, or a
combined residual-and-jacobian object is registered; a combined-matvec
function alone does not trigger Jacobian registration. -/
theorem solve_callback_registration (c : SNESCtx) :
    EngineCall.setFunction ∈ petscSolveTrace c ∧
    (EngineCall.setJacobianCall ∈ petscSolveTrace c ↔
      (c.jacobian.isSome = true ∨ c.jacobian_object.isSome = true ∨
        c.residual_and_jacobian_object.isSome = true)) := by
  constructor
  · simp [petscSolveTrace]
  · rcases hb : (c.jacobian.isSome || c.jacobian_object.isSome ||
      c.residual_and_jacobian_object.isSome) with - | -
    · simp only [Bool.or_eq_false_iff] at hb
      simp [petscSolveTrace, hb.1.1, hb.1.2, hb.2]
    · simp only [Bool.or_eq_true] at hb
      simp [petscSolveTrace, hb]
      tauto

/-! ### Gram-Schmidt lemmas -/

theorem dotQ_comm {d : ℕ} (v w : Fin d → ℚ) : dotQ v w = dotQ w v :=
  Finset.sum_congr rfl fun _ _ => mul_comm _ _

theorem dotQ_div_left {d : ℕ} (v w : Fin d → ℚ) (s : ℚ) :
    dotQ (fun i => v i / s) w = dotQ v w / s := by
  unfold dotQ
  rw [Finset.sum_div]
  exact Finset.sum_congr rfl fun i _ => div_mul_eq_mul_div _ _ _

/-- Pushing a dot product with `m` through the `VecMAXPY` accumulation. -/
theorem sum_map_dot {d : ℕ} (l : List (Fin d → ℚ)) (c : (Fin d → ℚ) → ℚ) (m : Fin d → ℚ) :
    ∑ i, (l.map (fun p => c p * p i)).sum * m i =
      (l.map (fun p => c p * dotQ p m)).sum := by
  induction l with
  | nil => simp
  | cons p rest ih =>
      simp only [List.map_cons, List.sum_cons, add_mul, Finset.sum_add_distrib, ih, dotQ,
        Finset.mul_sum, mul_assoc]

theorem dotQ_gsOrthoStep {d : ℕ} (processed : List (Fin d → ℚ)) (v m : Fin d → ℚ) :
    dotQ (gsOrthoStep processed v) m =
      dotQ v m - (processed.map (fun p => dotQ v p * dotQ p m)).sum := by
  unfold dotQ gsOrthoStep
  simp only [sub_mul, Finset.sum_sub_distrib]
  rw [sum_map_dot]
  rfl

/-- Over an orthonormal family the Gram-Schmidt correction sum against a
member `m` collapses to the single coefficient `dotQ v m`. -/
theorem sum_dot_orthonormal {d : ℕ} (v : Fin d → ℚ) :
    ∀ l : List (Fin d → ℚ), OrthoNormList l → ∀ m ∈ l,
      (l.map (fun p => dotQ v p * dotQ p m)).sum = dotQ v m := by
  intro l
  induction l with
  | nil => intro _ m hm; cases hm
  | cons q rest ih =>
      intro hON m hm
      obtain ⟨hpw, hunit⟩ := hON
      rw [List.pairwise_cons] at hpw
      by_cases hmr : m ∈ rest
      · have hq : dotQ q m = 0 := hpw.1 m hmr
        have hrest : (rest.map (fun p => dotQ v p * dotQ p m)).sum = dotQ v m :=
          ih ⟨hpw.2, fun u hu => hunit u (List.mem_cons_of_mem _ hu)⟩ m hmr
        simp [hq, hrest]
      · have hmq : m = q := by
          rcases List.mem_cons.mp hm with h | h
          · exact h
          · exact absurd h hmr
        subst hmq
        have hq : dotQ m m = 1 := hunit m (List.mem_cons_self m rest)
        have hrest : (rest.map (fun p => dotQ v p * dotQ p m)).sum = 0 := by
          apply List.sum_eq_zero
          intro a ha
          obtain ⟨p, hp, hpa⟩ := List.mem_map.mp ha
          have : dotQ p m = 0 := by
            rw [dotQ_comm]
            exact hpw.1 p hp
          rw [← hpa, this, mul_zero]
        simp [hq, hrest]

theorem gsOrthoStep_orthogonal {d : ℕ} (processed : List (Fin d → ℚ)) (v : Fin d → ℚ)
    (hON : OrthoNormList processed) :
    ∀ m ∈ processed, dotQ (gsOrthoStep processed v) m = 0 := by
  intro m hm
  rw [dotQ_gsOrthoStep, sum_dot_orthonormal v processed hON m hm, sub_self]

/-- Normalization keeps orthogonality to any fixed vector. -/
theorem dotQ_vecNormalize_left (vsqrt : ℚ → ℚ) {d : ℕ} (u m : Fin d → ℚ)
    (h : dotQ u m = 0) : dotQ (vecNormalize vsqrt u) m = 0 := by
  unfold vecNormalize
  by_cases hs : vsqrt (dotQ u u) = 0
  · simpa [hs] using h
  · simp only [hs, if_false]
    rw [dotQ_div_left, h, zero_div]

/-- If the square root of the self dot product is exact and the vector is
nonzero, its normalization has unit self dot product. -/
theorem dotQ_vecNormalize_self (vsqrt : ℚ → ℚ) {d : ℕ} (u : Fin d → ℚ)
    (hs : vsqrt (dotQ u u) * vsqrt (dotQ u u) = dotQ u u) (hnz : dotQ u u ≠ 0) :
    dotQ (vecNormalize vsqrt u) (vecNormalize vsqrt u) = 1 := by
  have hs0 : vsqrt (dotQ u u) ≠ 0 := by
    intro h
    rw [h, mul_zero] at hs
    exact hnz hs.symm
  unfold vecNormalize
  simp only [hs0, if_false]
  rw [dotQ_div_left]
  have : dotQ u (fun i => u i / vsqrt (dotQ u u)) = dotQ u u / vsqrt (dotQ u u) := by
    rw [dotQ_comm, dotQ_div_left, dotQ_comm]
  rw [this, div_div, hs, div_self hnz]

/-- Appending a unit vector orthogonal to an orthonormal family keeps the
family orthonormal. -/
theorem orthoNormList_append {d : ℕ} (l : List (Fin d → ℚ)) (u : Fin d → ℚ)
    (hON : OrthoNormList l) (horth : ∀ m ∈ l, dotQ u m = 0) (hunit : dotQ u u = 1) :
    OrthoNormList (l ++ [u]) := by
  obtain ⟨hpw, hu⟩ := hON
  constructor
  · rw [List.pairwise_append]
    refine ⟨hpw, List.pairwise_singleton _ _, ?_⟩
    intro a ha b hb
    rw [List.mem_singleton] at hb
    subst hb
    rw [dotQ_comm]
    exact horth a ha
  · intro v hv
    rcases List.mem_append.mp hv with h | h
    · exact hu v h
    · rw [List.mem_singleton] at h
      subst h
      exact hunit

/-- The Gram-Schmidt loop keeps the processed prefix orthonormal, given
that the square roots taken at each normalization are exact and each
pre-normalization vector is nonzero. -/
theorem gsLoop_orthonormal (vsqrt : ℚ → ℚ) {d : ℕ} :
    ∀ rest processed : List (Fin d → ℚ),
      OrthoNormList processed →
      (∀ u ∈ gsPreNorms vsqrt processed rest,
        vsqrt (dotQ u u) * vsqrt (dotQ u u) = dotQ u u ∧ dotQ u u ≠ 0) →
      OrthoNormList (gsLoop vsqrt processed rest) := by
  intro rest
  induction rest with
  | nil =>
      intro processed hON _
      simpa [gsLoop] using hON
  | cons v rest ih =>
      intro processed hON hpre
      obtain ⟨hs, hnz⟩ :=
        hpre (gsOrthoStep processed v) (by simp [gsPreNorms])
      have horth : ∀ m ∈ processed, dotQ (gsOrthoStep processed v) m = 0 :=
        gsOrthoStep_orthogonal processed v hON
      rw [gsLoop]
      apply ih
      · apply orthoNormList_append _ _ hON
        · intro m hm
          exact dotQ_vecNormalize_left vsqrt _ m (horth m hm)
        · exact dotQ_vecNormalize_self vsqrt _ hs hnz
      · intro u hu
        apply hpre
        rw [gsPreNorms]
        exact List.mem_cons_of_mem _ hu

/-- Largest `k ≤ m` with `k * k ≤ n` (a structurally recursive integer
square root used by witnesses). -/
def natSqrtBelow (n : ℕ) : ℕ → ℕ
  | 0 => 0
  | m + 1 => if (m + 1) * (m + 1) ≤ n then m + 1 else natSqrtBelow n m

/-- The rationally exact square root: exact on ratios of perfect squares,
used as a concrete `vsqrt` by witnesses. -/
def ratSqrt (q : ℚ) : ℚ :=
  (natSqrtBelow q.num.toNat q.num.toNat : ℚ) / (natSqrtBelow q.den q.den : ℚ)

/-- C8: an empty provider output attaches no subspace; for a nonempty
family of basis vectors whose Gram-Schmidt stages are exact (the square
roots taken are exact and every pre-normalization vector is nonzero, which
is what the claim's "basis vectors" and "exact arithmetic" amount to), the
constructed null-space basis is pairwise orthogonal with every vector of
unit norm. -/
theorem build_mat_null_space_orthonormal (vsqrt : ℚ → ℚ) {d : ℕ} (sp : List (Fin d → ℚ))
    (hexact : ∀ u ∈ gsPreNorms vsqrt ([] : List (Fin d → ℚ)) sp,
      vsqrt (dotQ u u) * vsqrt (dotQ u u) = dotQ u u ∧ dotQ u u ≠ 0) :
    build_mat_null_space vsqrt ([] : List (Fin d → ℚ)) = none ∧
    (sp ≠ [] → ∃ basis, build_mat_null_space vsqrt sp = some basis ∧ OrthoNormList basis) := by
  constructor
  · rfl
  · intro hne
    refine ⟨gsLoop vsqrt [] sp, ?_, ?_⟩
    · cases sp with
      | nil => exact absurd rfl hne
      | cons a l => rfl
    · exact gsLoop_orthonormal vsqrt sp [] ⟨List.Pairwise.nil, by simp⟩ hexact

/-- C8 witness: the vectors (3,4) and (4,-3) have exactly representable
Gram-Schmidt stages; the resulting basis is orthonormal. -/
theorem build_mat_null_space_orthonormal_witness :
    ∃ basis,
      build_mat_null_space ratSqrt [(![3, 4] : Fin 2 → ℚ), ![4, -3]] = some basis ∧
        OrthoNormList basis := by
  refine (build_mat_null_space_orthonormal ratSqrt [(![3, 4] : Fin 2 → ℚ), ![4, -3]]
    ?_).2 (by simp)
  have h25 : natSqrtBelow 25 25 = 5 := by decide
  have h11 : natSqrtBelow 1 1 = 1 := by decide
  have h5 : ratSqrt 25 = 5 := by
    have ht : Int.toNat 25 = 25 := rfl
    rw [ratSqrt]
    norm_num [ht, h25, h11]
  have hA : dotQ (gsOrthoStep ([] : List (Fin 2 → ℚ)) ![3, 4]) (gsOrthoStep [] ![3, 4])
      = 25 := by
    norm_num [gsOrthoStep, dotQ, Fin.sum_univ_two]
  have he1 : vecNormalize ratSqrt (gsOrthoStep ([] : List (Fin 2 → ℚ)) ![3, 4])
      = ![3 / 5, 4 / 5] := by
    funext i
    simp only [vecNormalize, hA, h5]
    norm_num [gsOrthoStep]
    fin_cases i <;> norm_num
  have hB : dotQ
      (gsOrthoStep [vecNormalize ratSqrt (gsOrthoStep ([] : List (Fin 2 → ℚ)) ![3, 4])]
        ![4, -3])
      (gsOrthoStep [vecNormalize ratSqrt (gsOrthoStep ([] : List (Fin 2 → ℚ)) ![3, 4])]
        ![4, -3]) = 25 := by
    rw [he1]
    norm_num [gsOrthoStep, dotQ, Fin.sum_univ_two]
  intro u hu
  simp only [gsPreNorms, List.nil_append, List.mem_cons, List.not_mem_nil, or_false] at hu
  rcases hu with h | h <;> subst h
  · exact ⟨by rw [hA, h5]; norm_num, by rw [hA]; norm_num⟩
  · exact ⟨by rw [hB, h5]; norm_num, by rw [hB]; norm_num⟩

/-! ### TypeVector theorems -/

/-- C9: for each compiled dimension 1, 2, 3, `operator==` on real-scalar
fixed-dimension vectors returns true exactly when the sum of absolute
coordinate differences is strictly below `DIM * TOLERANCE`, and
`operator!=` is its exact negation. -/
theorem typeVector_eq_tolerance (tol : ℚ) :
    (∀ u v : Fin 1 → ℚ, typeVectorEq tol u v = typeVectorEqSpec tol u v ∧
      typeVectorNe tol u v = !(typeVectorEq tol u v)) ∧
    (∀ u v : Fin 2 → ℚ, typeVectorEq tol u v = typeVectorEqSpec tol u v ∧
      typeVectorNe tol u v = !(typeVectorEq tol u v)) ∧
    (∀ u v : Fin 3 → ℚ, typeVectorEq tol u v = typeVectorEqSpec tol u v ∧
      typeVectorNe tol u v = !(typeVectorEq tol u v)) := by
  refine ⟨fun u v => ⟨?_, rfl⟩, fun u v => ⟨?_, rfl⟩, fun u v => ⟨?_, rfl⟩⟩ <;>
    simp [typeVectorEq, typeVectorEqSpec, Fin.sum_univ_succ]
  rw [add_assoc]

/-- C10: for a vector compiled with `0 < DIM < 3` and an index
`DIM ≤ i < 3`, the read-only accessor totally returns 0 while the writable
accessor is an error (`none`); for `i < DIM` the read-only accessor
returns coordinate `i`. -/
theorem typeVector_accessor_bounds {dim : ℕ} (u : Fin dim → ℚ) (i : ℕ)
    (hdim0 : 0 < dim) (hdim : dim < 3) (hi : i < 3) :
    (dim ≤ i →
      typeVectorGet u i hdim0 hi = 0 ∧ typeVectorGetRef u i hdim0 hi = none) ∧
    (∀ hilt : i < dim, typeVectorGet u i hdim0 hi = u ⟨i, hilt⟩) := by
  constructor
  · intro hge
    constructor
    · unfold typeVectorGet
      rw [dif_pos hdim, dif_pos (by omega)]
    · unfold typeVectorGetRef
      rw [dif_pos hdim, dif_pos hge]
  · intro hilt
    unfold typeVectorGet
    rw [dif_pos hdim, dif_neg (by omega)]

/-- C10 witness: in compiled dimension 2, index 2 reads as 0 and is a
write error, while index 1 reads coordinate 1. -/
theorem typeVector_accessor_bounds_witness :
    (typeVectorGet (![1, 7] : Fin 2 → ℚ) 2 (by decide) (by decide) = 0 ∧
      typeVectorGetRef (![1, 7] : Fin 2 → ℚ) 2 (by decide) (by decide) = none) ∧
    typeVectorGet (![1, 7] : Fin 2 → ℚ) 1 (by decide) (by decide) = 7 := by
  constructor
  · exact (typeVector_accessor_bounds ![1, 7] 2 (by decide) (by decide) (by decide)).1
      (by decide)
  · rw [(typeVector_accessor_bounds ![1, 7] 1 (by decide) (by decide) (by decide)).2
      (by decide)]
    decide

end LibMeshPetsc
